import Mathlib

/-!
Verification development for the container-health-tracker repository.

The definitions below are shallow embeddings of the TypeScript sources:
`src/services/HealthCalculator.ts`, `src/services/CatalogService.ts`
(`src/unnamed/part_005`), `src/integrations/graphql/RedHatClient.ts`, and the
stream-aware revision of `src/services/MonitoringOrchestrator.ts`.
JavaScript numbers are modelled as `Int`/`Nat`, strings as `String` (with
character-level helpers that mirror `split`, `parseInt`, `toLowerCase`, and
`includes`, because the JS methods operate on code units), fallible calls as
`Except String`, and external collaborators (catalog client, sheets
repository, notification service) as explicit environment records of
functions.
-/

/-! ## Data model: enumerations and records (src/models/types.ts, CVERecord) -/

inductive Severity where
  | Critical
  | Important
  | Moderate
  | Low
  | None
deriving DecidableEq, Repr

inductive HealthStatus where
  | Healthy
  | AtRisk
  | Critical
  | Unknown
deriving DecidableEq, Repr

/-- The fields of `CVERecord` that the pipeline logic reads. -/
structure CVERecord where
  cveId : String
  severity : Severity
  affectedPackages : List String := []
deriving DecidableEq, Repr

/-! ## HealthCalculator (src/services/HealthCalculator.ts) -/

/-- `SEVERITY_PENALTIES` from HealthCalculator.ts. -/
def severityPenalty : Severity → Int
  | Severity.Critical => 20
  | Severity.Important => 10
  | Severity.Moderate => 5
  | Severity.Low => 1
  | Severity.None => 0

/-- Result record of `calculateHealthIndex` (fields used by the pipeline;
the identification fields `imageId`/`registry`/`repository` and the wall-clock
`calculatedAt` are dropped since no claim mentions them). -/
structure HealthIndex where
  score : Int
  status : HealthStatus
  criticalCves : Nat
  importantCves : Nat
  moderateCves : Nat
  lowCves : Nat
  criticalPenalty : Int
  importantPenalty : Int
  moderatePenalty : Int
  lowPenalty : Int
  totalPenalty : Int
  previousScore : Option Int
  scoreChange : Option Int
  statusChanged : Bool
deriving DecidableEq, Repr

/-- `calculateHealthIndex` from HealthCalculator.ts.  The optional
`previousScore` argument is `Option Int` (`undefined` becomes `none`). -/
def calculateHealthIndex (cveRecords : List CVERecord)
    (previousScore : Option Int) : HealthIndex :=
  let criticalCves := (cveRecords.filter
    (fun cve => cve.severity == Severity.Critical)).length
  let importantCves := (cveRecords.filter
    (fun cve => cve.severity == Severity.Important)).length
  let moderateCves := (cveRecords.filter
    (fun cve => cve.severity == Severity.Moderate)).length
  let lowCves := (cveRecords.filter
    (fun cve => cve.severity == Severity.Low)).length
  let criticalPenalty : Int := criticalCves * severityPenalty Severity.Critical
  let importantPenalty : Int := importantCves * severityPenalty Severity.Important
  let moderatePenalty : Int := moderateCves * severityPenalty Severity.Moderate
  let lowPenalty : Int := lowCves * severityPenalty Severity.Low
  let totalPenalty := criticalPenalty + importantPenalty + moderatePenalty + lowPenalty
  let score : Int := max 0 (100 - totalPenalty)
  let status :=
    if criticalCves > 0 then HealthStatus.Critical
    else if importantCves > 0 then HealthStatus.AtRisk
    else HealthStatus.Healthy
  let scoreChange := previousScore.map (fun p => score - p)
  let statusChanged :=
    match previousScore with
    | some p => decide (score ≠ p)
    | none => false
  { score := score
    status := status
    criticalCves := criticalCves
    importantCves := importantCves
    moderateCves := moderateCves
    lowCves := lowCves
    criticalPenalty := criticalPenalty
    importantPenalty := importantPenalty
    moderatePenalty := moderatePenalty
    lowPenalty := lowPenalty
    totalPenalty := totalPenalty
    previousScore := previousScore
    scoreChange := scoreChange
    statusChanged := statusChanged }

/-! ## Character-level string helpers mirroring the JavaScript methods used by
CatalogService.  These are structural recursions so that the kernel can
evaluate them on concrete inputs. -/

/-- `String.prototype.split(sep)` for a one-character separator, on the
character list.  `splitOnChar c []` is `[[]]`, matching `"".split(c)`. -/
def splitOnChar (sep : Char) : List Char → List (List Char)
  | [] => [[]]
  | c :: cs =>
    if c = sep then [] :: splitOnChar sep cs
    else
      match splitOnChar sep cs with
      | h :: t => (c :: h) :: t
      | [] => [[c]]

/-- Numeric value of a list of decimal digit characters. -/
def digitsVal (ds : List Char) : Nat :=
  ds.foldl (fun a c => a * 10 + (c.toNat - 48)) 0

/-- The sign-and-digits tail of JavaScript `parseInt(s, 10)` after leading
whitespace has been skipped: an optional sign, then the longest run of
decimal digits; `none` models `NaN`. -/
def jsParseIntAfterWs : List Char → Option Int
  | [] => none
  | c :: rest =>
    if c = '-' then
      let ds := rest.takeWhile Char.isDigit
      if ds.isEmpty then none else some (-(digitsVal ds : Int))
    else if c = '+' then
      let ds := rest.takeWhile Char.isDigit
      if ds.isEmpty then none else some (digitsVal ds : Int)
    else
      let ds := (c :: rest).takeWhile Char.isDigit
      if ds.isEmpty then none else some (digitsVal ds : Int)

/-- JavaScript `parseInt(s, 10)` on a character list: skip leading
whitespace, then parse sign and digits. -/
def jsParseIntChars (cs : List Char) : Option Int :=
  jsParseIntAfterWs (cs.dropWhile Char.isWhitespace)

/-! ## CatalogService version parsing and comparison (src/unnamed/part_005) -/

/-- Result of `CatalogService.parseVersion`. -/
structure ParsedVersion where
  segments : List Int
  build : Option Int
deriving DecidableEq, Repr

/-- `CatalogService.parseVersion`: lowercase, strip one leading `v`, split on
the dashes, parse dot-separated integer segments (dropping `NaN`s), and parse
the optional numeric build part. -/
def parseVersion (version : String) : ParsedVersion :=
  let lowered := version.data.map Char.toLower
  let v :=
    match lowered with
    | 'v' :: rest => rest
    | l => l
  let parts := splitOnChar '-' v
  let mainVersion := parts.headD []
  let buildPart := parts[1]?
  let segments := (splitOnChar '.' mainVersion).filterMap jsParseIntChars
  let build :=
    match buildPart with
    | some bp => if bp.isEmpty then none else jsParseIntChars bp
    | none => none
  { segments := segments, build := build }

/-- The tail of the segment loop of `CatalogService.compareVersions` once the
first list is exhausted: each remaining entry of the second list is compared
against `0`. -/
def segCmpNil : List Int → Int
  | [] => 0
  | b :: bs => if 0 > b then 1 else if 0 < b then -1 else segCmpNil bs

/-- The segment loop of `CatalogService.compareVersions`: walk both segment
lists in lockstep, treating a missing entry as `0` (`parts.segments[i] || 0`). -/
def segCmpList : List Int → List Int → Int
  | [], bs => segCmpNil bs
  | a :: as, [] =>
    if a > 0 then 1 else if a < 0 then -1 else segCmpList as []
  | a :: as, b :: bs =>
    if a > b then 1 else if a < b then -1 else segCmpList as bs

/-- `CatalogService.compareVersions`: positive iff `v1` is newer. -/
def compareVersions (v1 v2 : String) : Int :=
  let parts1 := parseVersion v1
  let parts2 := parseVersion v2
  let s := segCmpList parts1.segments parts2.segments
  if s ≠ 0 then s
  else
    match parts1.build, parts2.build with
    | some b1, some b2 => if b1 > b2 then 1 else if b1 < b2 then -1 else 0
    | some _, none => 1
    | none, some _ => -1
    | none, none => 0

/-! ## CatalogService.findLatestImage (src/unnamed/part_005) -/

/-- One tag entry of a catalog image (`Tag` in redhat-api-types). -/
structure TagEntry where
  name : String
deriving DecidableEq, Repr

/-- One repository entry of a catalog image (`RepositoryInfo`). -/
structure RepoEntry where
  tags : List TagEntry
deriving DecidableEq, Repr

/-- A catalog image as consumed by `findLatestImage` (`ContainerImage`). -/
structure CatalogImageEntry where
  id : String
  dockerImageId : String
  architecture : String
  repositories : List RepoEntry
deriving DecidableEq, Repr

/-- The `CatalogImage` summary returned by `CatalogService.findLatestImage`. -/
structure CatalogImage where
  imageId : String
  dockerImageId : String
  version : String
  architecture : String
deriving DecidableEq, Repr

/-- Stable insertion step for `sortByCmp`: a later element `x` is inserted
after every earlier element `y` with `cmp y x ≤ 0`. -/
def insertByCmp (cmp : α → α → Int) (x : α) : List α → List α
  | [] => [x]
  | y :: ys => if cmp y x ≤ 0 then y :: insertByCmp cmp x ys else x :: y :: ys

/-- Stable comparator sort modelling JavaScript `Array.prototype.sort(c)`
(stable per the ECMAScript specification): an element `a` ends up before `b`
iff `c a b ≤ 0`, with ties keeping the original order. -/
def sortByCmp (cmp : α → α → Int) (l : List α) : List α :=
  l.foldl (fun acc x => insertByCmp cmp x acc) []

/-- The tag-flattening loop of `findLatestImage`: collect every
`(image, tag.name)` pair whose tag name is non-empty (`tag.name &&`) and not
the literal `"latest"`. -/
def extractImageTags (images : List CatalogImageEntry) :
    List (CatalogImageEntry × String) :=
  images.flatMap (fun image =>
    image.repositories.flatMap (fun repo =>
      repo.tags.filterMap (fun tag =>
        if tag.name ≠ "" ∧ tag.name ≠ "latest" then some (image, tag.name)
        else none)))

/-- `CatalogService.findLatestImage`: flatten the (image, tag) pairs, sort by
`(a, b) => compareVersions(b.tag, a.tag)` (highest first, stable), and return
the first pair, or `none` when no image or tag survives. -/
def findLatestImage (images : List CatalogImageEntry) : Option CatalogImage :=
  if images.isEmpty then none
  else
    let imageWithTags := extractImageTags images
    if imageWithTags.isEmpty then none
    else
      match sortByCmp (fun a b => compareVersions b.2 a.2) imageWithTags with
      | [] => none
      | latest :: _ =>
        some { imageId := latest.1.id
               dockerImageId := latest.1.dockerImageId
               version := latest.2
               architecture := latest.1.architecture }

/-! ## Stream-aware latest-build resolution (spec §4.1)

`MonitoringOrchestrator.processImage` calls
`catalogService.findLatestImageInStream(registry, imageName, architecture,
stream)`, but the body of that method is not among the repository sources
(only this call site and a changelog entry in the development notes mention
it).  The definitions below are therefore modelled from the spec. -/

/-- Modelled from the spec: a candidate build offered to `resolveLatest`
(`{buildId, tags[], createdAt}` in §4.1); `createdAt` is a timestamp. -/
structure CandidateBuild where
  buildId : String
  tags : List String
  createdAt : Nat
deriving DecidableEq, Repr

/-- Modelled from the spec: the `ResolvedBuild` produced by `resolveLatest`. -/
structure ResolvedBuild where
  buildId : String
  displayVersion : String
deriving DecidableEq, Repr

/-- Modelled from the spec: a tag matches the stream "as a version prefix"
(stream "4.9" accepts "4.9.0-1" and "4.9.2" but not "4.10.0") when the parsed
integer segments of the stream lead the parsed segments of the tag. -/
def streamMatches (stream tag : String) : Bool :=
  (parseVersion stream).segments.isPrefixOf (parseVersion tag).segments

/-- Modelled from the spec: full comparison of two `(build, tag)` pairs —
`compareVersions` on the tags first, then ties broken by `createdAt`
descending (the later-created build is the larger). -/
def fullCompare (a b : CandidateBuild × String) : Int :=
  let c := compareVersions a.2 b.2
  if c ≠ 0 then c
  else if a.1.createdAt > b.1.createdAt then 1
  else if a.1.createdAt < b.1.createdAt then -1
  else 0

/-- Modelled from the spec: `resolveLatest` / `findLatestImageInStream`
(§4.1).  Flatten every `(build, tag)` pair excluding the literal tag
`"latest"`; if the stream is not `"latest"`, discard tags that do not match
the stream as a version prefix; the maximal surviving pair under
`fullCompare` (first such pair on ties) yields the result, and `none` models
the NotFound variant. -/
def resolveLatest (stream : String) (candidates : List CandidateBuild) :
    Option ResolvedBuild :=
  let pairs := candidates.flatMap
    (fun b => b.tags.filterMap
      (fun t => if t ≠ "latest" then some (b, t) else none))
  let survivors :=
    if stream = "latest" then pairs
    else pairs.filter (fun p => streamMatches stream p.2)
  match survivors with
  | [] => none
  | p :: rest =>
    let best := rest.foldl (fun best x => if 0 < fullCompare x best then x else best) p
    some { buildId := best.1.buildId, displayVersion := best.2 }

/-- Claim-side description of the comparison (spec §4.1): zero-pad the
shorter segment list to the longer length. -/
def padWithZeros (l : List Int) (n : Nat) : List Int :=
  l ++ List.replicate (n - l.length) 0

/-- Claim-side description: lexicographic comparison of two equal-length
segment lists. -/
def lexCompareSameLen : List Int → List Int → Int
  | a :: as, b :: bs =>
    if a > b then 1 else if a < b then -1 else lexCompareSameLen as bs
  | _, _ => 0

/-- Claim-side description: a non-null build is newer than none; two builds
compare by value. -/
def specBuildCompare : Option Int → Option Int → Int
  | some b1, some b2 => if b1 > b2 then 1 else if b2 > b1 then -1 else 0
  | some _, none => 1
  | none, some _ => -1
  | none, none => 0

/-- Claim-side description of the whole tag comparison, written from the
spec's words: (1) lexicographic comparison of the zero-padded segments,
(2) the build rule on a tie.  Compared against the source's
`compareVersions` in the C3 theorem. -/
def specCompareVersions (p q : ParsedVersion) : Int :=
  let n := max p.segments.length q.segments.length
  let s := lexCompareSameLen (padWithZeros p.segments n) (padWithZeros q.segments n)
  if s ≠ 0 then s else specBuildCompare p.build q.build

/-! ## RedHatClient.executeQuery retry loop
(src/integrations/graphql/RedHatClient.ts) -/

/-- Does `needle` occur contiguously in `haystack`?  Models JavaScript
`String.prototype.includes` at the character-list level. -/
def listContainsSub [DecidableEq α] : List α → List α → Bool
  | [], needle => needle.isEmpty
  | h :: t, needle => needle.isPrefixOf (h :: t) || listContainsSub t needle

/-- JavaScript `s.includes(pat)`. -/
def strIncludes (s pat : String) : Bool :=
  listContainsSub s.data pat.data

/-- JavaScript `Array.prototype.join(sep)` (used on the GraphQL error
messages). -/
def joinSep (sep : String) : List String → String
  | [] => ""
  | [s] => s
  | s :: rest => s ++ sep ++ joinSep sep rest

/-- A parsed GraphQL response body: the `errors` array (messages) and the
`data` payload. -/
structure GraphQLResult (α : Type) where
  errors : List String
  data : α
deriving DecidableEq, Repr

/-- An HTTP response as observed through `UrlFetchApp` with
`muteHttpExceptions`. -/
structure HttpResponse where
  statusCode : Nat
  content : String
deriving DecidableEq, Repr

/-- What one fetch attempt of `executeQuery` can observe: the fetch call
throwing (transport failure), or a response whose body parses to
`some` GraphQL result (`none` models `JSON.parse` throwing). -/
inductive AttemptOutcome (α : Type) where
  | fetchError (msg : String)
  | response (resp : HttpResponse) (parsed : Option (GraphQLResult α))
deriving Repr

/-- The body of one `try` block of `executeQuery`: classify the outcome of a
single attempt exactly as the source does, producing either the data or the
thrown error message. -/
def attemptResult (o : AttemptOutcome α) : Except String α :=
  match o with
  | AttemptOutcome.fetchError msg => Except.error msg
  | AttemptOutcome.response resp parsed =>
    if resp.statusCode ≥ 500 then
      Except.error ("Server error (" ++ toString resp.statusCode ++ "): " ++ resp.content)
    else if resp.statusCode ≥ 400 then
      Except.error ("Client error (" ++ toString resp.statusCode ++ "): " ++ resp.content)
    else if resp.statusCode ≠ 200 then
      Except.error ("Unexpected status " ++ toString resp.statusCode ++ ": " ++ resp.content)
    else
      match parsed with
      | none => Except.error ("JSON parse error: " ++ resp.content)
      | some r =>
        if r.errors.isEmpty then Except.ok r.data
        else Except.error ("GraphQL errors: " ++ joinSep ", " r.errors)

/-- `maxRetries` in `executeQuery`. -/
def maxRetries : Nat := 3

/-- `baseDelayMs` in `executeQuery`. -/
def baseDelayMs : Nat := 1000

/-- Instrumented result of `executeQuery`: the returned data or thrown error,
the number of attempts actually made, and the list of backoff delays slept
(in milliseconds, in order). -/
structure ExecResult (α : Type) where
  result : Except String α
  attempts : Nat
  delays : List Nat
deriving Repr

/-- The attempt loop of `executeQuery`, iterating over the remaining attempt
indices.  A result is returned on success; an error whose message includes
`"Client error"` or `"GraphQL errors"` is rethrown without retry; otherwise,
when attempts remain, the loop sleeps `baseDelayMs * 2 ^ attempt` and
retries; after the last attempt the aggregated error is thrown. -/
def runAttempts (fetch : Nat → AttemptOutcome α) :
    List Nat → Option String → ExecResult α
  | [], lastError =>
    { result := Except.error ("Red Hat API request failed after " ++
        toString maxRetries ++ " attempts: " ++ lastError.getD "Unknown error")
      attempts := 0
      delays := [] }
  | attempt :: rest, _ =>
    match attemptResult (fetch attempt) with
    | Except.ok data => { result := Except.ok data, attempts := 1, delays := [] }
    | Except.error msg =>
      if strIncludes msg "Client error" || strIncludes msg "GraphQL errors" then
        { result := Except.error msg, attempts := 1, delays := [] }
      else
        let r := runAttempts fetch rest (some msg)
        if rest.isEmpty then
          { result := r.result, attempts := r.attempts + 1, delays := r.delays }
        else
          { result := r.result, attempts := r.attempts + 1
            delays := (baseDelayMs * 2 ^ attempt) :: r.delays }

/-- `RedHatClient.executeQuery` over the sequence of attempt outcomes the
network would deliver. -/
def executeQuery (fetch : Nat → AttemptOutcome α) : ExecResult α :=
  runAttempts fetch [0, 1, 2] none

/-! ## RedHatClient.findImageVulnerabilities pagination -/

/-- One page returned by the `find_image_vulnerabilities` query: the records
on the page, the reported total count, and the reported page size. -/
structure PageResult (α : Type) where
  data : List α
  total : Nat
  page_size : Nat
deriving DecidableEq, Repr

/-- `Math.ceil(total / page_size)` for a positive page size.  (For
`page_size = 0` JavaScript would yield `Infinity` and the source loop would
never terminate; the model returns `0` there, and every theorem below assumes
a positive page size.) -/
def jsCeilPages (total pageSize : Nat) : Nat :=
  (total + pageSize - 1) / pageSize

/-- The `while (hasMorePages)` loop of `findImageVulnerabilities`, fetching
page `currentPage`, appending its records and continuing while
`currentPage + 1 < Math.ceil(total / page_size)`.  The source loop is
unbounded; `fuel` bounds the recursion and every theorem supplies enough of
it for the loop to run to completion. -/
def findImageVulnerabilitiesGo (server : Nat → PageResult α) :
    Nat → Nat → List α
  | 0, _ => []
  | fuel + 1, currentPage =>
    let r := server currentPage
    let totalPages := jsCeilPages r.total r.page_size
    if currentPage + 1 < totalPages then
      r.data ++ findImageVulnerabilitiesGo server fuel (currentPage + 1)
    else
      r.data

/-- `RedHatClient.findImageVulnerabilities`, starting at page 0. -/
def findImageVulnerabilities (server : Nat → PageResult α) (fuel : Nat) :
    List α :=
  findImageVulnerabilitiesGo server fuel 0

/-- A consistent paginated catalog: page `p` of the master record list, with
the true total and a fixed page size. -/
def chunkServer (master : List α) (pageSize : Nat) : Nat → PageResult α :=
  fun page =>
    { data := (master.drop (page * pageSize)).take pageSize
      total := master.length
      page_size := pageSize }

/-! ## MonitoringOrchestrator (src/services/MonitoringOrchestrator.ts,
stream-aware revision) -/

/-- Delivery status of a notification (src/models/types.ts). -/
inductive DeliveryStatus where
  | Success
  | Failed
  | Pending
  | Skipped
deriving DecidableEq, Repr

/-- The previously recorded health for a combination, as returned by
`SheetsRepository.getPreviousHealthStatus`. -/
structure PrevHealth where
  status : HealthStatus
  score : Int
deriving DecidableEq, Repr

/-- The fields of `NotificationEvent` that the orchestrator computes
deterministically (`eventId` and `triggeredAt` involve wall-clock values and
are dropped). -/
structure NotificationEvent where
  imageId : String
  registry : String
  repository : String
  imageVersion : String
  previousStatus : HealthStatus
  currentStatus : HealthStatus
  previousScore : Int
  currentScore : Int
  criticalCveCount : Nat
  importantCveCount : Nat
  affectedCves : List String
  affectedPackages : List String
deriving DecidableEq, Repr

/-- `Array.from(new Set(xs))`: deduplicate keeping first occurrences. -/
def dedupFirstAux (seen : List String) : List String → List String
  | [] => []
  | x :: xs =>
    if seen.contains x then dedupFirstAux seen xs
    else x :: dedupFirstAux (x :: seen) xs

/-- `Array.from(new Set(xs))` on a string list. -/
def dedupFirst (xs : List String) : List String :=
  dedupFirstAux [] xs

/-- The string value of a `HealthStatus` (src/models/types.ts). -/
def statusToString : HealthStatus → String
  | HealthStatus.Healthy => "Healthy"
  | HealthStatus.AtRisk => "At Risk"
  | HealthStatus.Critical => "Critical"
  | HealthStatus.Unknown => "Unknown"

/-- One `writeCVEData` call recorded against the sheets collaborator. -/
structure CVEDataWrite where
  imageName : String
  architecture : String
  stream : String
  version : String
  records : List CVERecord
  score : Int
  status : HealthStatus
deriving DecidableEq, Repr

/-- One `appendHistoricalSnapshot` call (wall-clock timestamp dropped). -/
structure SnapshotRow where
  imageName : String
  architecture : String
  stream : String
  version : String
  totalCves : Nat
  criticalCount : Nat
  importantCount : Nat
  moderateCount : Nat
  lowCount : Nat
  healthIndex : Int
  healthStatus : HealthStatus
  statusChange : String
deriving DecidableEq, Repr

/-- The side effects accumulated while processing units: sheet writes,
historical snapshots, and queued notification events. -/
structure UnitEffects where
  cveWrites : List CVEDataWrite
  snapshots : List SnapshotRow
  events : List NotificationEvent
deriving DecidableEq, Repr

/-- No side effects. -/
def emptyEffects : UnitEffects :=
  { cveWrites := [], snapshots := [], events := [] }

/-- Concatenation of recorded side effects in execution order. -/
def appendEffects (a b : UnitEffects) : UnitEffects :=
  { cveWrites := a.cveWrites ++ b.cveWrites
    snapshots := a.snapshots ++ b.snapshots
    events := a.events ++ b.events }

/-- The external collaborators of the orchestrator, as the source calls them:
each fallible call is an `Except String` (a thrown `Error` carries its
message). -/
structure OrchestratorEnv where
  findRepository : String → Except String Unit
  findLatestImageInStream :
    String → String → String → String → Except String (Option CatalogImage)
  fetchImageVulnerabilities :
    String → String → String → String → Except String (List CVERecord)
  getPreviousHealthStatus : String → String → String → Option PrevHealth
  hasNotificationService : Bool
  send : NotificationEvent → Except String DeliveryStatus

/-- `ImageProcessingResult` from MonitoringOrchestrator.ts. -/
structure ImageProcessingResult where
  imageName : String
  success : Bool
  cveCount : Nat
  healthIndex : Int
  healthStatus : HealthStatus
  error : Option String
deriving DecidableEq, Repr

/-- `previousHealth?.status || HealthStatus.UNKNOWN` (every status string is
truthy, so only a missing record falls back to Unknown). -/
def previousStatusOf (prev : Option PrevHealth) : HealthStatus :=
  match prev with
  | some p => p.status
  | none => HealthStatus.Unknown

/-- `previousHealth?.score || 0` (a recorded score of `0` is falsy in JS, but
the fallback is also `0`, so `getD 0` is exact). -/
def previousScoreOf (prev : Option PrevHealth) : Int :=
  match prev with
  | some p => p.score
  | none => 0

/-- Step 5 of `processImage`: `statusChanged = previousStatus !==
healthIndex.status`. -/
def statusChangedCalc (prev : Option PrevHealth) (current : HealthStatus) : Bool :=
  previousStatusOf prev ≠ current

/-- The placeholder CVE row written when a stream/architecture combination is
not found in the registry. -/
def notFoundCveWrite (imageName _registry architecture stream : String) :
    CVEDataWrite :=
  { imageName := imageName
    architecture := architecture
    stream := stream
    version := "N/A"
    records := [{ cveId := "ERROR: Not found in registry"
                  severity := Severity.None
                  affectedPackages := [] }]
    score := 0
    status := HealthStatus.Unknown }

/-- The failure branch of `processImage`'s `catch`. -/
def failureResult (imageName msg : String) : ImageProcessingResult :=
  { imageName := imageName
    success := false
    cveCount := 0
    healthIndex := 0
    healthStatus := HealthStatus.Unknown
    error := some msg }

/-- `MonitoringOrchestrator.processImage` (stream-aware revision): find the
repository, resolve the latest image in the stream, fetch vulnerabilities,
calculate health, detect the status change against the previous recorded
status, queue a notification event when it changed and a notification
service is configured, and record the CVE write and historical snapshot.
Every thrown error is caught at this boundary and becomes a failure result. -/
def processImage (env : OrchestratorEnv)
    (imageName registry architecture stream : String) :
    ImageProcessingResult × UnitEffects :=
  match env.findRepository imageName with
  | Except.error msg => (failureResult imageName msg, emptyEffects)
  | Except.ok _ =>
    match env.findLatestImageInStream registry imageName architecture stream with
    | Except.error msg => (failureResult imageName msg, emptyEffects)
    | Except.ok Option.none =>
      (failureResult imageName ("No images found for " ++ registry ++ "/" ++
          imageName ++ " (" ++ architecture ++ ", stream: " ++ stream ++ ")"),
       { cveWrites := [notFoundCveWrite imageName registry architecture stream]
         snapshots := []
         events := [] })
    | Except.ok (Option.some latestImage) =>
      match env.fetchImageVulnerabilities latestImage.imageId registry
          imageName latestImage.version with
      | Except.error msg => (failureResult imageName msg, emptyEffects)
      | Except.ok cveRecords =>
        let healthIndex := calculateHealthIndex cveRecords none
        let previousHealth := env.getPreviousHealthStatus imageName architecture stream
        let previousStatus := previousStatusOf previousHealth
        let previousScore := previousScoreOf previousHealth
        let statusChanged := statusChangedCalc previousHealth healthIndex.status
        let events :=
          if statusChanged ∧ env.hasNotificationService then
            [{ imageId := latestImage.imageId
               registry := registry
               repository := imageName
               imageVersion := latestImage.version
               previousStatus := previousStatus
               currentStatus := healthIndex.status
               previousScore := previousScore
               currentScore := healthIndex.score
               criticalCveCount := healthIndex.criticalCves
               importantCveCount := healthIndex.importantCves
               affectedCves := cveRecords.map (fun cve => cve.cveId)
               affectedPackages :=
                 dedupFirst (cveRecords.flatMap (fun cve => cve.affectedPackages)) }]
          else []
        let statusChangeDescription :=
          if statusChanged then
            statusToString previousStatus ++ " → " ++ statusToString healthIndex.status
          else "No change"
        ({ imageName := imageName
           success := true
           cveCount := cveRecords.length
           healthIndex := healthIndex.score
           healthStatus := healthIndex.status
           error := none },
         { cveWrites := [{ imageName := imageName
                           architecture := architecture
                           stream := stream
                           version := latestImage.version
                           records := cveRecords
                           score := healthIndex.score
                           status := healthIndex.status }]
           snapshots := [{ imageName := imageName
                           architecture := architecture
                           stream := stream
                           version := latestImage.version
                           totalCves := cveRecords.length
                           criticalCount := healthIndex.criticalCves
                           importantCount := healthIndex.importantCves
                           moderateCount := healthIndex.moderateCves
                           lowCount := healthIndex.lowCves
                           healthIndex := healthIndex.score
                           healthStatus := healthIndex.status
                           statusChange := statusChangeDescription }]
           events := events })

/-- One enabled row of the Config sheet. -/
structure ConfigRow where
  imageName : String
  streams : List String
  architectures : List String
deriving DecidableEq, Repr

/-- One stream × architecture combination to process. -/
structure Combo where
  imageName : String
  stream : String
  architecture : String
deriving DecidableEq, Repr

/-- `MonitoringOrchestrator.generateCombinations`. -/
def generateCombinations (imageName : String)
    (streams architectures : List String) : List Combo :=
  streams.flatMap (fun stream =>
    architectures.map (fun architecture =>
      { imageName := imageName, stream := stream, architecture := architecture }))

/-- All combinations of a run, in processing order. -/
def runCombos (configRows : List ConfigRow) : List Combo :=
  configRows.flatMap (fun row =>
    generateCombinations row.imageName row.streams row.architectures)

/-- One entry of the orchestrator's error log. -/
structure RunError where
  imageId : Option String
  errorType : String
  errorMessage : String
deriving DecidableEq, Repr

/-- Overall run status (`'completed' | 'partial' | 'failed'` in the source;
capitalised constructors). -/
inductive RunStatus where
  | Completed
  | PartialRun
  | FailedRun
deriving DecidableEq, Repr

/-- The counters of `MonitoringRun` that the run loop updates. -/
structure RunSummary where
  imagesProcessed : Nat
  imagesSuccessful : Nat
  imagesFailed : Nat
  totalCvesDiscovered : Nat
  notificationsSent : Nat
  notificationsFailed : Nat
  status : RunStatus
  errors : List RunError
deriving DecidableEq, Repr

/-- Loop state of `execute`'s combination loop. -/
structure LoopState where
  processed : Nat
  successful : Nat
  failed : Nat
  totalCves : Nat
  errors : List RunError
  effects : UnitEffects
deriving DecidableEq, Repr

/-- The default registry passed by `execute`. -/
def defaultRegistry : String := "registry.access.redhat.com"

/-- One iteration of `execute`'s combination loop: increment
`imagesProcessed`, process the combination, and tally success or failure
(logging a `PROCESSING_ERROR` carrying `imageName:architecture:stream`). -/
def stepCombo (env : OrchestratorEnv) (st : LoopState) (c : Combo) : LoopState :=
  let pr := processImage env c.imageName defaultRegistry c.architecture c.stream
  if pr.1.success then
    { st with
      processed := st.processed + 1
      successful := st.successful + 1
      totalCves := st.totalCves + pr.1.cveCount
      effects := appendEffects st.effects pr.2 }
  else
    { st with
      processed := st.processed + 1
      failed := st.failed + 1
      errors := st.errors ++
        [{ imageId := some (c.imageName ++ ":" ++ c.architecture ++ ":" ++ c.stream)
           errorType := "PROCESSING_ERROR"
           errorMessage := pr.1.error.getD "Unknown error" }]
      effects := appendEffects st.effects pr.2 }

/-- The notification dispatch loop at the end of `execute`: send each queued
event, counting `Success` deliveries and `Failed` deliveries (a throwing
`send` also counts as failed; `Pending`/`Skipped` count as neither). -/
def dispatchEvents (env : OrchestratorEnv) (events : List NotificationEvent) :
    Nat × Nat :=
  events.foldl
    (fun acc e =>
      match env.send e with
      | Except.ok DeliveryStatus.Success => (acc.1 + 1, acc.2)
      | Except.ok DeliveryStatus.Failed => (acc.1, acc.2 + 1)
      | Except.ok _ => acc
      | Except.error _ => (acc.1, acc.2 + 1))
    (0, 0)

/-- `MonitoringOrchestrator.execute` (stream-aware revision): process every
stream × architecture combination of every enabled config row, then — only
after the whole loop — dispatch the queued notification events, and derive
the overall status.  Returns the run summary, the accumulated side effects,
and the list of events actually dispatched. -/
def execute (env : OrchestratorEnv) (configRows : List ConfigRow) :
    RunSummary × UnitEffects × List NotificationEvent :=
  let combos := runCombos configRows
  let st := combos.foldl (stepCombo env)
    { processed := 0, successful := 0, failed := 0, totalCves := 0
      errors := [], effects := emptyEffects }
  let queued := st.effects.events
  let dispatched :=
    if env.hasNotificationService ∧ ¬queued.isEmpty then queued else []
  let sentFailed := dispatchEvents env dispatched
  let status :=
    if st.failed = 0 then RunStatus.Completed
    else if st.successful > 0 then RunStatus.PartialRun
    else RunStatus.FailedRun
  ({ imagesProcessed := st.processed
     imagesSuccessful := st.successful
     imagesFailed := st.failed
     totalCvesDiscovered := st.totalCves
     notificationsSent := sentFailed.1
     notificationsFailed := sentFailed.2
     status := status
     errors := st.errors },
   st.effects,
   dispatched)

/-- The health status a combination's unit computes when it succeeds (`none`
when any step of the unit fails): used to state run-level properties. -/
def comboCurrentStatus (env : OrchestratorEnv) (c : Combo) :
    Option HealthStatus :=
  match env.findRepository c.imageName with
  | Except.error _ => none
  | Except.ok _ =>
    match env.findLatestImageInStream defaultRegistry c.imageName
        c.architecture c.stream with
    | Except.error _ => none
    | Except.ok Option.none => none
    | Except.ok (Option.some latestImage) =>
      match env.fetchImageVulnerabilities latestImage.imageId defaultRegistry
          c.imageName latestImage.version with
      | Except.error _ => none
      | Except.ok cveRecords => some (calculateHealthIndex cveRecords none).status

/-! ## Concrete test environments used by the theorems below -/

/-- A healthy image observed for the first time: the sheet has no previous
status, the catalog resolves and reports zero CVEs, and a notification
service is configured. -/
def firstSightEnv : OrchestratorEnv :=
  { findRepository := fun _ => Except.ok ()
    findLatestImageInStream := fun _ _ _ _ =>
      Except.ok (some { imageId := "id1", dockerImageId := "sha",
                        version := "8.10", architecture := "amd64" })
    fetchImageVulnerabilities := fun _ _ _ _ => Except.ok []
    getPreviousHealthStatus := fun _ _ _ => none
    hasNotificationService := true
    send := fun _ => Except.ok DeliveryStatus.Success }

/-- An environment where the lookup for image `img3` always throws and every
other image resolves and reports zero CVEs. -/
def failEnv : OrchestratorEnv :=
  { findRepository := fun _ => Except.ok ()
    findLatestImageInStream := fun _ imageName _ _ =>
      if imageName = "img3" then Except.error "Lookup failed"
      else Except.ok (some { imageId := "id-" ++ imageName, dockerImageId := "sha",
                             version := "1.0", architecture := "amd64" })
    fetchImageVulnerabilities := fun _ _ _ _ => Except.ok []
    getPreviousHealthStatus := fun _ _ _ => none
    hasNotificationService := false
    send := fun _ => Except.ok DeliveryStatus.Skipped }

/-- Five config rows, one stream × architecture combination each. -/
def fiveRows : List ConfigRow :=
  ["img1", "img2", "img3", "img4", "img5"].map (fun n =>
    { imageName := n, streams := ["latest"], architectures := ["amd64"] })

/-- An environment whose current status always equals the previously recorded
status (the sheet recorded Healthy and the catalog reports zero CVEs). -/
def quietEnv : OrchestratorEnv :=
  { findRepository := fun _ => Except.ok ()
    findLatestImageInStream := fun _ imageName _ _ =>
      Except.ok (some { imageId := "id-" ++ imageName, dockerImageId := "sha",
                        version := "1.0", architecture := "amd64" })
    fetchImageVulnerabilities := fun _ _ _ _ => Except.ok []
    getPreviousHealthStatus := fun _ _ _ =>
      some { status := HealthStatus.Healthy, score := 100 }
    hasNotificationService := true
    send := fun _ => Except.ok DeliveryStatus.Success }

/-- An attempt sequence whose first response is a 302 redirect status and
whose second succeeds. -/
def fetch302 : Nat → AttemptOutcome Nat := fun attempt =>
  if attempt = 0 then
    AttemptOutcome.response { statusCode := 302, content := "redirect" }
      (some { errors := [], data := 0 })
  else
    AttemptOutcome.response { statusCode := 200, content := "ok" }
      (some { errors := [], data := 42 })

/-! ## Theorems -/

/-- C1: for every list of vulnerability records, `calculateHealthIndex`
counts the records per severity bucket (severity None is ignored), computes
penalty `critical*20 + important*10 + moderate*5 + low*1`, returns
`score = max(0, 100 - penalty)` and the status
Critical / AtRisk / Healthy rule; in particular score(1,0,0,0) = 80 with
status Critical, score(0,2,0,0) = 80 with status AtRisk, score(0,0,0,0) = 100
with status Healthy, and six or more Critical records clamp the score to
exactly 0, never negative. -/
theorem calculateHealthIndex_score_status_spec :
    (∀ recs : List CVERecord,
      (calculateHealthIndex recs none).criticalCves =
        recs.countP (fun r => r.severity == Severity.Critical) ∧
      (calculateHealthIndex recs none).importantCves =
        recs.countP (fun r => r.severity == Severity.Important) ∧
      (calculateHealthIndex recs none).moderateCves =
        recs.countP (fun r => r.severity == Severity.Moderate) ∧
      (calculateHealthIndex recs none).lowCves =
        recs.countP (fun r => r.severity == Severity.Low) ∧
      (calculateHealthIndex recs none).score =
        max 0 (100 -
          (20 * ((recs.countP (fun r => r.severity == Severity.Critical) : Int)) +
           10 * ((recs.countP (fun r => r.severity == Severity.Important) : Int)) +
           5 * ((recs.countP (fun r => r.severity == Severity.Moderate) : Int)) +
           1 * ((recs.countP (fun r => r.severity == Severity.Low) : Int)))) ∧
      (calculateHealthIndex recs none).status =
        (if 0 < recs.countP (fun r => r.severity == Severity.Critical) then
          HealthStatus.Critical
         else if 0 < recs.countP (fun r => r.severity == Severity.Important) then
          HealthStatus.AtRisk
         else HealthStatus.Healthy) ∧
      0 ≤ (calculateHealthIndex recs none).score) ∧
    (∀ recs : List CVERecord,
      6 ≤ recs.countP (fun r => r.severity == Severity.Critical) →
      (calculateHealthIndex recs none).score = 0) ∧
    (∀ (recs : List CVERecord) (prev : Option Int) (r : CVERecord),
      r.severity = Severity.None →
      calculateHealthIndex (r :: recs) prev = calculateHealthIndex recs prev) ∧
    ((calculateHealthIndex [{ cveId := "CVE-1", severity := Severity.Critical }] none).score = 80 ∧
     (calculateHealthIndex [{ cveId := "CVE-1", severity := Severity.Critical }] none).status =
       HealthStatus.Critical) ∧
    ((calculateHealthIndex [{ cveId := "CVE-1", severity := Severity.Important },
        { cveId := "CVE-2", severity := Severity.Important }] none).score = 80 ∧
     (calculateHealthIndex [{ cveId := "CVE-1", severity := Severity.Important },
        { cveId := "CVE-2", severity := Severity.Important }] none).status =
       HealthStatus.AtRisk) ∧
    ((calculateHealthIndex [] none).score = 100 ∧
     (calculateHealthIndex [] none).status = HealthStatus.Healthy) := by
  refine ⟨?_, ?_, ?_, by decide, by decide, by decide⟩
  · intro recs
    refine ⟨?_, ?_, ?_, ?_, ?_, ?_, ?_⟩
    · simp [calculateHealthIndex, List.countP_eq_length_filter]
    · simp [calculateHealthIndex, List.countP_eq_length_filter]
    · simp [calculateHealthIndex, List.countP_eq_length_filter]
    · simp [calculateHealthIndex, List.countP_eq_length_filter]
    · simp only [calculateHealthIndex, List.countP_eq_length_filter, severityPenalty]
      ring_nf
    · simp only [calculateHealthIndex, List.countP_eq_length_filter]
    · simp only [calculateHealthIndex]
      exact le_max_left 0 _
  · intro recs h6
    simp only [calculateHealthIndex, List.countP_eq_length_filter] at h6 ⊢
    have hcrit : (6 : Int) ≤
        ((recs.filter (fun r => r.severity == Severity.Critical)).length : Int) := by
      exact_mod_cast h6
    have him : (0 : Int) ≤
        ((recs.filter (fun r => r.severity == Severity.Important)).length : Int) :=
      Int.natCast_nonneg _
    have hmo : (0 : Int) ≤
        ((recs.filter (fun r => r.severity == Severity.Moderate)).length : Int) :=
      Int.natCast_nonneg _
    have hlo : (0 : Int) ≤
        ((recs.filter (fun r => r.severity == Severity.Low)).length : Int) :=
      Int.natCast_nonneg _
    simp only [severityPenalty]
    rw [max_eq_left]
    nlinarith
  · intro recs prev r hr
    simp [calculateHealthIndex, List.filter_cons, hr]

/-- Witness for C1 at concrete inputs: six Critical records score exactly 0,
and a severity-None record does not change the result. -/
theorem calculateHealthIndex_score_status_spec_witness :
    (calculateHealthIndex (List.replicate 6
      { cveId := "CVE-X", severity := Severity.Critical, affectedPackages := [] }) none).score = 0 ∧
    calculateHealthIndex [{ cveId := "CVE-N", severity := Severity.None, affectedPackages := [] }] none =
      calculateHealthIndex [] none :=
  ⟨calculateHealthIndex_score_status_spec.2.1 _ (by decide),
   calculateHealthIndex_score_status_spec.2.2.1 [] none _ rfl⟩

/-- C10: `statusChanged` is true iff a previous score was supplied and the
new score differs from it; it compares scores, not statuses (the status can
differ from the previous run's while `statusChanged` is false, and the status
can be unchanged while `statusChanged` is true), and it is always false when
`previousScore` is omitted. -/
theorem calculateHealthIndex_statusChanged_spec :
    (∀ (recs : List CVERecord) (p : Option Int),
      (calculateHealthIndex recs p).statusChanged = true ↔
        ∃ prev, p = some prev ∧ (calculateHealthIndex recs p).score ≠ prev) ∧
    (∀ recs : List CVERecord,
      (calculateHealthIndex recs none).statusChanged = false) ∧
    ((calculateHealthIndex [{ cveId := "CVE-A", severity := Severity.Important },
        { cveId := "CVE-B", severity := Severity.Important }] (some 80)).statusChanged = false ∧
     (calculateHealthIndex [{ cveId := "CVE-A", severity := Severity.Important },
        { cveId := "CVE-B", severity := Severity.Important }] (some 80)).status =
       HealthStatus.AtRisk ∧
     (calculateHealthIndex [{ cveId := "CVE-C", severity := Severity.Critical }] none).status =
       HealthStatus.Critical ∧
     (calculateHealthIndex [{ cveId := "CVE-C", severity := Severity.Critical }] none).score = 80) ∧
    ((calculateHealthIndex [{ cveId := "CVE-C", severity := Severity.Critical }] (some 90)).statusChanged = true ∧
     (calculateHealthIndex [{ cveId := "CVE-C", severity := Severity.Critical }] (some 90)).status =
       HealthStatus.Critical) := by
  refine ⟨?_, ?_, by decide, by decide⟩
  · intro recs p
    cases p with
    | none => simp [calculateHealthIndex]
    | some prev => simp [calculateHealthIndex]
  · intro recs
    simp [calculateHealthIndex]

/-- Witness for C10 at a concrete input: with records `[]` and previous score
5, the new score 100 differs, so `statusChanged` is true. -/
theorem calculateHealthIndex_statusChanged_spec_witness :
    (calculateHealthIndex [] (some 5)).statusChanged = true :=
  (calculateHealthIndex_statusChanged_spec.1 [] (some 5)).mpr
    ⟨5, rfl, by decide⟩

/-- C2 counterexample: on the very first observation of a coordinate whose
computed status is Healthy (no previous snapshot, zero CVEs), the change
detection still reports a change and a notification event is queued, because
`Unknown != Healthy`.  This refutes the claim that on first sight the
detection "fires exactly when the first status isn't Healthy": here the first
status IS Healthy and it fires anyway. -/
theorem firstSight_healthy_still_fires :
    (processImage firstSightEnv "ubi8/ubi" defaultRegistry "amd64" "latest").1.healthStatus =
      HealthStatus.Healthy ∧
    (processImage firstSightEnv "ubi8/ubi" defaultRegistry "amd64" "latest").2.events.length = 1 := by
  decide

/-- C2 (amended): change detection sets `changed` to true iff the previous
status differs from the current status, a missing previous snapshot is
treated as status Unknown, so on the very first observation
`changed = (Unknown != current.status)` — which always fires on first sight,
because the computed status (Healthy / AtRisk / Critical) is never Unknown;
in particular it also fires when the first status is Healthy.  The last
conjunct ties the detection into `processImage`: the historical snapshot of a
successful unit records the transition description exactly when the detection
fired. -/
theorem statusChanged_detection_spec :
    (∀ (prev : Option PrevHealth) (cur : HealthStatus),
      statusChangedCalc prev cur = true ↔ previousStatusOf prev ≠ cur) ∧
    (∀ cur : HealthStatus,
      statusChangedCalc none cur = decide (HealthStatus.Unknown ≠ cur)) ∧
    (∀ recs : List CVERecord,
      statusChangedCalc none (calculateHealthIndex recs none).status = true) ∧
    (∀ (env : OrchestratorEnv) (imageName registry architecture stream : String)
        (latestImage : CatalogImage) (cveRecords : List CVERecord),
      env.findRepository imageName = Except.ok () →
      env.findLatestImageInStream registry imageName architecture stream =
        Except.ok (some latestImage) →
      env.fetchImageVulnerabilities latestImage.imageId registry imageName
        latestImage.version = Except.ok cveRecords →
      (processImage env imageName registry architecture stream).2.snapshots.map
          (fun s => s.statusChange) =
        [if statusChangedCalc (env.getPreviousHealthStatus imageName architecture stream)
            (calculateHealthIndex cveRecords none).status then
          statusToString (previousStatusOf
            (env.getPreviousHealthStatus imageName architecture stream)) ++ " → " ++
            statusToString (calculateHealthIndex cveRecords none).status
         else "No change"]) := by
  refine ⟨?_, ?_, ?_, ?_⟩
  · intro prev cur
    simp [statusChangedCalc]
  · intro cur
    simp [statusChangedCalc, previousStatusOf]
  · intro recs
    simp only [statusChangedCalc, previousStatusOf, calculateHealthIndex]
    split
    · decide
    · split
      · decide
      · decide
  · intro env imageName registry architecture stream latestImage cveRecords h1 h2 h3
    simp [processImage, h1, h2, h3]

/-- Witness for C2's amended theorem: the first-sight environment satisfies
the success-path hypotheses, and its snapshot records the Unknown → Healthy
transition. -/
theorem statusChanged_detection_spec_witness :
    (processImage firstSightEnv "ubi8/ubi" defaultRegistry "amd64" "latest").2.snapshots.map
        (fun s => s.statusChange) =
      [if statusChangedCalc (firstSightEnv.getPreviousHealthStatus "ubi8/ubi" "amd64" "latest")
          (calculateHealthIndex [] none).status then
        statusToString (previousStatusOf
          (firstSightEnv.getPreviousHealthStatus "ubi8/ubi" "amd64" "latest")) ++ " → " ++
          statusToString (calculateHealthIndex [] none).status
       else "No change"] :=
  statusChanged_detection_spec.2.2.2 firstSightEnv "ubi8/ubi" defaultRegistry
    "amd64" "latest"
    { imageId := "id1", dockerImageId := "sha", version := "8.10", architecture := "amd64" }
    [] rfl rfl rfl

/-- Each loop iteration increments `imagesProcessed` exactly once, on success
and on failure alike. -/
theorem stepCombo_processed (env : OrchestratorEnv) (st : LoopState) (c : Combo) :
    (stepCombo env st c).processed = st.processed + 1 := by
  simp only [stepCombo]
  split <;> rfl

/-- Each loop iteration adds exactly one to `imagesSuccessful + imagesFailed`. -/
theorem stepCombo_succ_failed (env : OrchestratorEnv) (st : LoopState) (c : Combo) :
    (stepCombo env st c).successful + (stepCombo env st c).failed =
      st.successful + st.failed + 1 := by
  simp only [stepCombo]
  split <;> simp <;> omega

/-- Each loop iteration appends exactly the unit's side effects. -/
theorem stepCombo_effects (env : OrchestratorEnv) (st : LoopState) (c : Combo) :
    (stepCombo env st c).effects =
      appendEffects st.effects
        (processImage env c.imageName defaultRegistry c.architecture c.stream).2 := by
  simp only [stepCombo]
  split <;> rfl

/-- The combination loop processes every combination: the final `processed`
counter is the initial one plus the number of combinations. -/
theorem foldl_stepCombo_processed (env : OrchestratorEnv) :
    ∀ (combos : List Combo) (st : LoopState),
      (combos.foldl (stepCombo env) st).processed = st.processed + combos.length := by
  intro combos
  induction combos with
  | nil => intro st; simp
  | cons c cs ih =>
    intro st
    simp only [List.foldl_cons, List.length_cons]
    rw [ih, stepCombo_processed]
    omega

/-- Every processed combination is tallied as a success or as a failure. -/
theorem foldl_stepCombo_succ_failed (env : OrchestratorEnv) :
    ∀ (combos : List Combo) (st : LoopState),
      (combos.foldl (stepCombo env) st).successful +
        (combos.foldl (stepCombo env) st).failed =
      st.successful + st.failed + combos.length := by
  intro combos
  induction combos with
  | nil => intro st; simp
  | cons c cs ih =>
    intro st
    simp only [List.foldl_cons, List.length_cons]
    rw [ih, stepCombo_succ_failed]
    omega

/-- The queued notification events of the loop are exactly the concatenation
of the per-unit events, in processing order. -/
theorem foldl_stepCombo_events (env : OrchestratorEnv) :
    ∀ (combos : List Combo) (st : LoopState),
      (combos.foldl (stepCombo env) st).effects.events =
        st.effects.events ++ combos.flatMap
          (fun c => (processImage env c.imageName defaultRegistry
            c.architecture c.stream).2.events) := by
  intro combos
  induction combos with
  | nil => intro st; simp
  | cons c cs ih =>
    intro st
    simp only [List.foldl_cons, List.flatMap_cons]
    rw [ih, stepCombo_effects]
    simp [appendEffects]

/-- C7: an exception in a unit's lookup is caught at the unit boundary and
converted into a failure result carrying the coordinate, error type, and
message, and processing of the remaining coordinates continues: every
combination is processed and counted as success or failure.  Concretely, a
run over 5 coordinates whose third lookup always throws still produces
snapshots for the other 4 and reports processed=5, succeeded=4, failed=1. -/
theorem run_failure_isolation_spec :
    (∀ (env : OrchestratorEnv) (rows : List ConfigRow),
      (execute env rows).1.imagesProcessed = (runCombos rows).length ∧
      (execute env rows).1.imagesProcessed =
        (execute env rows).1.imagesSuccessful + (execute env rows).1.imagesFailed) ∧
    (∀ (env : OrchestratorEnv) (imageName registry architecture stream msg : String),
      env.findRepository imageName = Except.ok () →
      env.findLatestImageInStream registry imageName architecture stream =
        Except.error msg →
      processImage env imageName registry architecture stream =
        (failureResult imageName msg, emptyEffects)) ∧
    ((execute failEnv fiveRows).1.imagesProcessed = 5 ∧
     (execute failEnv fiveRows).1.imagesSuccessful = 4 ∧
     (execute failEnv fiveRows).1.imagesFailed = 1 ∧
     (execute failEnv fiveRows).1.status = RunStatus.PartialRun ∧
     (execute failEnv fiveRows).1.errors =
       [{ imageId := some "img3:amd64:latest"
          errorType := "PROCESSING_ERROR"
          errorMessage := "Lookup failed" }] ∧
     (execute failEnv fiveRows).2.1.snapshots.map (fun s => s.imageName) =
       ["img1", "img2", "img4", "img5"]) := by
  refine ⟨?_, ?_, by decide⟩
  · intro env rows
    constructor
    · simp only [execute]
      rw [foldl_stepCombo_processed]
      simp
    · simp only [execute]
      rw [foldl_stepCombo_processed]
      have h := foldl_stepCombo_succ_failed env (runCombos rows)
        { processed := 0, successful := 0, failed := 0, totalCves := 0
          errors := [], effects := emptyEffects }
      simp only [] at h
      simp
      omega
  · intro env imageName registry architecture stream msg h1 h2
    simp [processImage, h1, h2]

/-- Witness for C7 at a concrete input: the failing lookup of `img3` is
converted into a failure result. -/
theorem run_failure_isolation_spec_witness :
    processImage failEnv "img3" defaultRegistry "amd64" "latest" =
      (failureResult "img3" "Lookup failed", emptyEffects) :=
  run_failure_isolation_spec.2.1 failEnv "img3" defaultRegistry "amd64"
    "latest" "Lookup failed" rfl rfl

/-- A unit whose computed status equals its previously recorded status (or
which fails) queues no notification event. -/
theorem processImage_events_of_unchanged (env : OrchestratorEnv) (c : Combo)
    (h : comboCurrentStatus env c = none ∨
      comboCurrentStatus env c =
        some (previousStatusOf
          (env.getPreviousHealthStatus c.imageName c.architecture c.stream))) :
    (processImage env c.imageName defaultRegistry c.architecture c.stream).2.events = [] := by
  cases hrep : env.findRepository c.imageName with
  | error msg => simp [processImage, hrep, emptyEffects]
  | ok u =>
    cases u
    cases hlat : env.findLatestImageInStream defaultRegistry c.imageName
        c.architecture c.stream with
    | error msg => simp [processImage, hrep, hlat, emptyEffects]
    | ok o =>
      cases o with
      | none => simp [processImage, hrep, hlat]
      | some latestImage =>
        cases hfetch : env.fetchImageVulnerabilities latestImage.imageId
            defaultRegistry c.imageName latestImage.version with
        | error msg => simp [processImage, hrep, hlat, hfetch, emptyEffects]
        | ok cveRecords =>
          unfold comboCurrentStatus at h
          simp only [hrep, hlat, hfetch, Option.some.injEq,
            reduceCtorEq, false_or] at h
          simp [processImage, hrep, hlat, hfetch, statusChangedCalc, h]

/-- C8: with a notification service configured, each successfully processed
unit queues exactly one notification intent iff its transition changed; the
dispatched events are exactly the queued ones, sent only after all units
completed; and a run in which every unit's current status equals its
previously recorded status queues and dispatches zero notifications. -/
theorem notification_intent_spec :
    (∀ (env : OrchestratorEnv) (imageName registry architecture stream : String)
        (latestImage : CatalogImage) (cveRecords : List CVERecord),
      env.hasNotificationService = true →
      env.findRepository imageName = Except.ok () →
      env.findLatestImageInStream registry imageName architecture stream =
        Except.ok (some latestImage) →
      env.fetchImageVulnerabilities latestImage.imageId registry imageName
        latestImage.version = Except.ok cveRecords →
      (processImage env imageName registry architecture stream).2.events.length =
        (if statusChangedCalc (env.getPreviousHealthStatus imageName architecture stream)
            (calculateHealthIndex cveRecords none).status then 1 else 0)) ∧
    (∀ (env : OrchestratorEnv) (rows : List ConfigRow),
      env.hasNotificationService = true →
      (execute env rows).2.2 = (execute env rows).2.1.events) ∧
    (∀ (env : OrchestratorEnv) (rows : List ConfigRow),
      (∀ c ∈ runCombos rows,
        comboCurrentStatus env c = none ∨
        comboCurrentStatus env c =
          some (previousStatusOf
            (env.getPreviousHealthStatus c.imageName c.architecture c.stream))) →
      (execute env rows).2.1.events = [] ∧
      (execute env rows).1.notificationsSent = 0 ∧
      (execute env rows).2.2 = []) := by
  refine ⟨?_, ?_, ?_⟩
  · intro env imageName registry architecture stream latestImage cveRecords
      hns h1 h2 h3
    simp only [processImage, h1, h2, h3]
    by_cases hch : statusChangedCalc
        (env.getPreviousHealthStatus imageName architecture stream)
        (calculateHealthIndex cveRecords none).status = true
    · simp [hch, hns]
    · simp only [Bool.not_eq_true] at hch
      simp [hch, hns]
  · intro env rows hns
    simp only [execute]
    by_cases hq : (List.foldl (stepCombo env)
        { processed := 0, successful := 0, failed := 0, totalCves := 0
          errors := [], effects := emptyEffects }
        (runCombos rows)).effects.events.isEmpty
    · rw [if_neg]
      · exact (List.isEmpty_iff.mp hq).symm
      · simp [hq]
    · rw [if_pos]
      exact ⟨by simp [hns], by simp [hq]⟩
  · intro env rows h
    have hev : (List.foldl (stepCombo env)
        { processed := 0, successful := 0, failed := 0, totalCves := 0
          errors := [], effects := emptyEffects }
        (runCombos rows)).effects.events = [] := by
      rw [foldl_stepCombo_events]
      simp only [emptyEffects, List.nil_append]
      rw [List.flatMap_eq_nil_iff]
      intro c hc
      exact processImage_events_of_unchanged env c (h c hc)
    refine ⟨by simpa [execute] using hev, ?_, ?_⟩
    · simp only [execute, hev]
      simp [dispatchEvents]
    · simp only [execute, hev]
      simp

/-- Witness for C8 at a concrete input: a single-row run whose current status
(Healthy, zero CVEs) equals the recorded previous status dispatches zero
notifications. -/
theorem notification_intent_spec_witness :
    (execute quietEnv [{ imageName := "ubi8/ubi", streams := ["latest"], architectures := ["amd64"] }]).2.1.events = [] ∧
    (execute quietEnv [{ imageName := "ubi8/ubi", streams := ["latest"], architectures := ["amd64"] }]).1.notificationsSent = 0 ∧
    (execute quietEnv [{ imageName := "ubi8/ubi", streams := ["latest"], architectures := ["amd64"] }]).2.2 = [] :=
  notification_intent_spec.2.2 quietEnv
    [{ imageName := "ubi8/ubi", streams := ["latest"], architectures := ["amd64"] }]
    (by decide)

/-- A needle that leads a list is found by the substring scan. -/
theorem listContainsSub_of_isPrefixOf [DecidableEq α] (l needle : List α)
    (h : needle.isPrefixOf l = true) : listContainsSub l needle = true := by
  cases l with
  | nil =>
    cases needle with
    | nil => rfl
    | cons a t => simp [List.isPrefixOf] at h
  | cons a l' => simp [listContainsSub, h]

/-- Extending the haystack on the right preserves a leading needle. -/
theorem isPrefixOf_append_right [DecidableEq α] :
    ∀ (l t needle : List α),
      needle.isPrefixOf l = true → needle.isPrefixOf (l ++ t) = true := by
  intro l t needle
  induction needle generalizing l with
  | nil => intro h; simp [List.isPrefixOf]
  | cons n ns ih =>
    intro h
    cases l with
    | nil => simp [List.isPrefixOf] at h
    | cons a l' =>
      simp only [List.isPrefixOf, List.cons_append, Bool.and_eq_true] at h ⊢
      exact ⟨h.1, ih l' h.2⟩

/-- A string that starts with `pre` includes any pattern that leads `pre`. -/
theorem strIncludes_of_leading (pre suf pat : String)
    (h : pat.data.isPrefixOf pre.data = true) :
    strIncludes (pre ++ suf) pat = true := by
  unfold strIncludes
  rw [String.data_append]
  exact listContainsSub_of_isPrefixOf _ _ (isPrefixOf_append_right _ _ _ h)

/-- The retry loop makes at most as many attempts as it has attempt indices. -/
theorem runAttempts_attempts_le (fetch : Nat → AttemptOutcome α) :
    ∀ (idxs : List Nat) (last : Option String),
      (runAttempts fetch idxs last).attempts ≤ idxs.length := by
  intro idxs
  induction idxs with
  | nil => intro last; simp [runAttempts]
  | cons i rest ih =>
    intro last
    simp only [runAttempts]
    cases ha : attemptResult (fetch i) with
    | ok data => simp
    | error msg =>
      simp only
      by_cases hc : (strIncludes msg "Client error" ||
          strIncludes msg "GraphQL errors") = true
      · simp [hc]
      · simp only [Bool.not_eq_true] at hc
        simp only [hc, Bool.false_eq_true, if_false]
        by_cases hr : rest.isEmpty
        · simp only [hr, if_true, List.length_cons]
          exact Nat.succ_le_succ (ih _)
        · simp only [hr, Bool.false_eq_true, if_false, List.length_cons]
          exact Nat.succ_le_succ (ih _)

/-- A successful attempt ends the loop at once. -/
theorem runAttempts_cons_ok (fetch : Nat → AttemptOutcome α) (i : Nat)
    (rest : List Nat) (last : Option String) (data : α)
    (ha : attemptResult (fetch i) = Except.ok data) :
    runAttempts fetch (i :: rest) last =
      { result := Except.ok data, attempts := 1, delays := [] } := by
  simp [runAttempts, ha]

/-- A failed attempt whose message marks a client or GraphQL error is
rethrown without retry. -/
theorem runAttempts_cons_noretry (fetch : Nat → AttemptOutcome α) (i : Nat)
    (rest : List Nat) (last : Option String) (msg : String)
    (ha : attemptResult (fetch i) = Except.error msg)
    (hinc : (strIncludes msg "Client error" ||
      strIncludes msg "GraphQL errors") = true) :
    runAttempts fetch (i :: rest) last =
      { result := Except.error msg, attempts := 1, delays := [] } := by
  simp [runAttempts, ha, hinc]

/-- A retryable failure with attempts remaining sleeps
`baseDelayMs * 2 ^ attempt` and recurses. -/
theorem runAttempts_cons_retry (fetch : Nat → AttemptOutcome α) (i : Nat)
    (rest : List Nat) (last : Option String) (msg : String)
    (ha : attemptResult (fetch i) = Except.error msg)
    (hni : (strIncludes msg "Client error" ||
      strIncludes msg "GraphQL errors") = false)
    (hne : rest.isEmpty = false) :
    runAttempts fetch (i :: rest) last =
      { result := (runAttempts fetch rest (some msg)).result
        attempts := (runAttempts fetch rest (some msg)).attempts + 1
        delays := (baseDelayMs * 2 ^ i) :: (runAttempts fetch rest (some msg)).delays } := by
  simp [runAttempts, ha, hni, hne]

/-- A retryable failure on the final attempt yields the aggregated error
without sleeping again. -/
theorem runAttempts_singleton_exhausted (fetch : Nat → AttemptOutcome α)
    (i : Nat) (last : Option String) (msg : String)
    (ha : attemptResult (fetch i) = Except.error msg)
    (hni : (strIncludes msg "Client error" ||
      strIncludes msg "GraphQL errors") = false) :
    runAttempts fetch [i] last =
      { result := Except.error ("Red Hat API request failed after " ++
          toString maxRetries ++ " attempts: " ++ msg)
        attempts := 1, delays := [] } := by
  simp [runAttempts, ha, hni]

/-- C5 counterexample: a response with status 302 — not a transport failure
and not 5xx-class — is retried (the call succeeds on attempt 2 after a 1s
backoff), refuting the claim that the client retries *only* on transport
failures or 5xx-class responses. -/
theorem executeQuery_redirect_retried :
    (executeQuery fetch302).result = Except.ok 42 ∧
    (executeQuery fetch302).attempts = 2 ∧
    (executeQuery fetch302).delays = [1000] :=
  ⟨rfl, rfl, rfl⟩

/-- C5 (amended): every catalog call makes at most 3 attempts, sleeping
`2 ^ attempt` seconds between attempts (1s then 2s; a third delay never
occurs because no sleep follows the final attempt); it retries on transport
failures, 5xx-class responses, and any other unexpected non-200 status that
is not 4xx-class; a call that returns 503 twice and succeeds on the third
attempt returns the successful result; 4xx-class responses and structured
GraphQL errors fail after exactly one attempt with no retry; and after the
final failed attempt the call fails with a single aggregated error naming the
attempt count and the last underlying cause. -/
theorem executeQuery_retry_spec :
    (∀ (α : Type) (fetch : Nat → AttemptOutcome α),
      (executeQuery fetch).attempts ≤ 3) ∧
    (∀ (α : Type) (fetch : Nat → AttemptOutcome α)
        (p0 p1 : Option (GraphQLResult α)) (data : α),
      fetch 0 = AttemptOutcome.response
        { statusCode := 503, content := "service unavailable" } p0 →
      fetch 1 = AttemptOutcome.response
        { statusCode := 503, content := "service unavailable" } p1 →
      attemptResult (fetch 2) = Except.ok data →
      executeQuery fetch =
        { result := Except.ok data, attempts := 3, delays := [1000, 2000] }) ∧
    (∀ (α : Type) (fetch : Nat → AttemptOutcome α) (code : Nat) (body : String)
        (parsed : Option (GraphQLResult α)),
      400 ≤ code → code < 500 →
      fetch 0 = AttemptOutcome.response
        { statusCode := code, content := body } parsed →
      executeQuery fetch =
        { result := Except.error ("Client error (" ++ toString code ++ "): " ++ body)
          attempts := 1, delays := [] }) ∧
    (∀ (α : Type) (fetch : Nat → AttemptOutcome α) (body e : String)
        (es : List String) (d : α),
      fetch 0 = AttemptOutcome.response { statusCode := 200, content := body }
        (some { errors := e :: es, data := d }) →
      executeQuery fetch =
        { result := Except.error ("GraphQL errors: " ++ joinSep ", " (e :: es))
          attempts := 1, delays := [] }) ∧
    (∀ (α : Type) (fetch : Nat → AttemptOutcome α)
        (p0 p1 p2 : Option (GraphQLResult α)),
      fetch 0 = AttemptOutcome.response
        { statusCode := 503, content := "service unavailable" } p0 →
      fetch 1 = AttemptOutcome.response
        { statusCode := 503, content := "service unavailable" } p1 →
      fetch 2 = AttemptOutcome.response
        { statusCode := 503, content := "service unavailable" } p2 →
      executeQuery fetch =
        { result := Except.error
            "Red Hat API request failed after 3 attempts: Server error (503): service unavailable"
          attempts := 3, delays := [1000, 2000] }) ∧
    (∀ (α : Type) (fetch : Nat → AttemptOutcome α) (data : α),
      fetch 0 = AttemptOutcome.fetchError "timeout" →
      attemptResult (fetch 1) = Except.ok data →
      executeQuery fetch =
        { result := Except.ok data, attempts := 2, delays := [1000] }) := by
  have hni503 : (strIncludes "Server error (503): service unavailable" "Client error" ||
      strIncludes "Server error (503): service unavailable" "GraphQL errors") = false := by
    decide
  refine ⟨?_, ?_, ?_, ?_, ?_, ?_⟩
  · intro α fetch
    exact runAttempts_attempts_le fetch [0, 1, 2] none
  · intro α fetch p0 p1 data h0 h1 h2
    have ha0 : attemptResult (fetch 0) =
        Except.error "Server error (503): service unavailable" := by rw [h0]; rfl
    have ha1 : attemptResult (fetch 1) =
        Except.error "Server error (503): service unavailable" := by rw [h1]; rfl
    unfold executeQuery
    rw [runAttempts_cons_retry fetch 0 [1, 2] none _ ha0 hni503 rfl]
    rw [runAttempts_cons_retry fetch 1 [2] (some _) _ ha1 hni503 rfl]
    rw [runAttempts_cons_ok fetch 2 [] (some _) data h2]
    norm_num [baseDelayMs]
  · intro α fetch code body parsed h4 h5 h0
    have ha0 : attemptResult (fetch 0) =
        Except.error ("Client error (" ++ toString code ++ "): " ++ body) := by
      rw [h0]
      simp only [attemptResult]
      rw [if_neg (by omega), if_pos (by omega)]
    have hpre : ("Client error".data).isPrefixOf
        ((("Client error (" ++ toString code) ++ "): ").data) = true := by
      rw [String.data_append, String.data_append]
      exact isPrefixOf_append_right _ _ _
        (isPrefixOf_append_right _ _ _ (by decide))
    have hinc : (strIncludes ("Client error (" ++ toString code ++ "): " ++ body)
          "Client error" ||
        strIncludes ("Client error (" ++ toString code ++ "): " ++ body)
          "GraphQL errors") = true := by
      rw [strIncludes_of_leading _ _ _ hpre]
      rfl
    unfold executeQuery
    rw [runAttempts_cons_noretry fetch 0 [1, 2] none _ ha0 hinc]
  · intro α fetch body e es d h0
    have ha0 : attemptResult (fetch 0) =
        Except.error ("GraphQL errors: " ++ joinSep ", " (e :: es)) := by rw [h0]; rfl
    have hinc : (strIncludes ("GraphQL errors: " ++ joinSep ", " (e :: es))
          "Client error" ||
        strIncludes ("GraphQL errors: " ++ joinSep ", " (e :: es))
          "GraphQL errors") = true := by
      rw [strIncludes_of_leading _ _ _ (by decide : ("GraphQL errors".data).isPrefixOf ("GraphQL errors: ".data) = true)]
      rw [Bool.or_true]
    unfold executeQuery
    rw [runAttempts_cons_noretry fetch 0 [1, 2] none _ ha0 hinc]
  · intro α fetch p0 p1 p2 h0 h1 h2
    have ha0 : attemptResult (fetch 0) =
        Except.error "Server error (503): service unavailable" := by rw [h0]; rfl
    have ha1 : attemptResult (fetch 1) =
        Except.error "Server error (503): service unavailable" := by rw [h1]; rfl
    have ha2 : attemptResult (fetch 2) =
        Except.error "Server error (503): service unavailable" := by rw [h2]; rfl
    unfold executeQuery
    rw [runAttempts_cons_retry fetch 0 [1, 2] none _ ha0 hni503 rfl]
    rw [runAttempts_cons_retry fetch 1 [2] (some _) _ ha1 hni503 rfl]
    rw [runAttempts_singleton_exhausted fetch 2 (some _) _ ha2 hni503]
    have hmsg : ("Red Hat API request failed after " ++ toString maxRetries ++
        " attempts: " ++ "Server error (503): service unavailable") =
        "Red Hat API request failed after 3 attempts: Server error (503): service unavailable" := rfl
    rw [hmsg]
    norm_num [baseDelayMs]
  · intro α fetch data h0 h1
    have ha0 : attemptResult (fetch 0) = Except.error "timeout" := by rw [h0]; rfl
    have hni : (strIncludes "timeout" "Client error" ||
        strIncludes "timeout" "GraphQL errors") = false := by decide
    unfold executeQuery
    rw [runAttempts_cons_retry fetch 0 [1, 2] none _ ha0 hni rfl]
    rw [runAttempts_cons_ok fetch 1 [2] (some _) data h1]
    norm_num [baseDelayMs]

/-- Witness for C5's amended theorem at a concrete input: a client that
always returns 404 fails after exactly one attempt with no retry and no
backoff sleep. -/
theorem executeQuery_retry_spec_witness :
    executeQuery (fun _ => AttemptOutcome.response
        { statusCode := 404, content := "not found" }
        (none : Option (GraphQLResult Nat))) =
      { result := Except.error ("Client error (" ++ toString 404 ++ "): " ++ "not found")
        attempts := 1, delays := [] } :=
  executeQuery_retry_spec.2.2.1 Nat _ 404 "not found" none (by norm_num)
    (by norm_num) rfl

/-- If the page count bound `ceil(L / P)` is at most `k`, then the `L`
records fit into `k` pages of size `P`. -/
theorem jsCeilPages_le_imp (L P k : Nat) (hP : 0 < P)
    (h : jsCeilPages L P ≤ k) : L ≤ k * P := by
  unfold jsCeilPages at h
  rw [Nat.div_le_iff_le_mul_add_pred hP] at h
  have : L ≤ P * k := by omega
  simpa [Nat.mul_comm] using this

/-- The pagination loop over a consistent chunked catalog returns exactly the
remaining records from the current page onwards, given enough fuel. -/
theorem fivGo_chunk (master : List α) (P : Nat) (hP : 0 < P) :
    ∀ (fuel page : Nat), jsCeilPages master.length P ≤ page + fuel →
      findImageVulnerabilitiesGo (chunkServer master P) fuel page =
        master.drop (page * P) := by
  intro fuel
  induction fuel with
  | zero =>
    intro page h
    simp only [findImageVulnerabilitiesGo]
    have hlen : master.length ≤ page * P :=
      jsCeilPages_le_imp _ _ _ hP (by omega)
    exact (List.drop_eq_nil_of_le hlen).symm
  | succ fuel ih =>
    intro page h
    simp only [findImageVulnerabilitiesGo, chunkServer]
    by_cases hc : page + 1 < jsCeilPages master.length P
    · rw [if_pos hc]
      rw [ih (page + 1) (by omega)]
      conv_rhs => rw [← List.take_append_drop P (master.drop (page * P))]
      rw [List.drop_drop]
      congr 2
      ring
    · rw [if_neg hc]
      have hlen : master.length ≤ (page + 1) * P :=
        jsCeilPages_le_imp _ _ _ hP (by omega)
      apply List.take_of_length_le
      rw [List.length_drop]
      have hexp : (page + 1) * P = page * P + P := by ring
      omega

/-- C6: the vulnerability listing loops internally over successive pages and
accumulates all records before returning — over any consistent paginated
catalog of a master record list it returns exactly the master list; in
particular, 3 pages of 100/100/37 records for a declared total of 237 yield
exactly 237 records with no duplicates. -/
theorem findImageVulnerabilities_pagination_spec :
    (∀ (α : Type) (master : List α) (P fuel : Nat),
      0 < P → jsCeilPages master.length P ≤ fuel →
      findImageVulnerabilities (chunkServer master P) fuel = master) ∧
    (findImageVulnerabilities (chunkServer (List.range 237) 100) 3 = List.range 237 ∧
     (findImageVulnerabilities (chunkServer (List.range 237) 100) 3).length = 237 ∧
     (findImageVulnerabilities (chunkServer (List.range 237) 100) 3).Nodup ∧
     (chunkServer (List.range 237) 100 0).data.length = 100 ∧
     (chunkServer (List.range 237) 100 1).data.length = 100 ∧
     (chunkServer (List.range 237) 100 2).data.length = 37) := by
  have hgen : ∀ (α : Type) (master : List α) (P fuel : Nat),
      0 < P → jsCeilPages master.length P ≤ fuel →
      findImageVulnerabilities (chunkServer master P) fuel = master := by
    intro α master P fuel hP hf
    unfold findImageVulnerabilities
    rw [fivGo_chunk master P hP fuel 0 (by omega)]
    simp
  have h237 : findImageVulnerabilities (chunkServer (List.range 237) 100) 3 =
      List.range 237 :=
    hgen Nat (List.range 237) 100 3 (by norm_num) (by simp [jsCeilPages])
  refine ⟨hgen, h237, by rw [h237]; simp, by rw [h237]; exact List.nodup_range 237,
    by simp [chunkServer], by simp [chunkServer], by simp [chunkServer]⟩

/-- Witness for C6 at a concrete input: the 237-record catalog paged by 100
is returned in full. -/
theorem findImageVulnerabilities_pagination_spec_witness :
    findImageVulnerabilities (chunkServer (List.range 237) 100) 3 =
      List.range 237 :=
  findImageVulnerabilities_pagination_spec.1 Nat (List.range 237) 100 3
    (by norm_num) (by simp [jsCeilPages])

/-- The split never produces an empty list of parts. -/
theorem splitOnChar_ne_nil (sep : Char) (cs : List Char) :
    splitOnChar sep cs ≠ [] := by
  cases cs with
  | nil => simp [splitOnChar]
  | cons c cs =>
    simp only [splitOnChar]
    by_cases hc : c = sep
    · simp [hc]
    · rw [if_neg hc]
      cases hsp : splitOnChar sep cs with
      | nil => simp
      | cons h t => simp

/-- The separator never occurs inside a part produced by the split. -/
theorem mem_splitOnChar_not_sep (sep : Char) :
    ∀ (cs p : List Char), p ∈ splitOnChar sep cs → sep ∉ p := by
  intro cs
  induction cs with
  | nil =>
    intro p hp
    simp only [splitOnChar, List.mem_singleton] at hp
    subst hp
    simp
  | cons c cs ih =>
    intro p hp
    simp only [splitOnChar] at hp
    by_cases hc : c = sep
    · rw [if_pos hc] at hp
      rcases List.mem_cons.mp hp with h | h
      · subst h; simp
      · exact ih p h
    · rw [if_neg hc] at hp
      cases hsp : splitOnChar sep cs with
      | nil => exact absurd hsp (splitOnChar_ne_nil sep cs)
      | cons hd tl =>
        rw [hsp] at hp
        rcases List.mem_cons.mp hp with h | h
        · subst h
          intro hmem
          rcases List.mem_cons.mp hmem with h2 | h2
          · exact hc h2.symm
          · exact ih hd (by rw [hsp]; exact List.mem_cons_self _ _) h2
        · exact ih p (by rw [hsp]; exact List.mem_cons_of_mem _ h)

/-- Every character of a part produced by the split occurs in the input. -/
theorem mem_splitOnChar_subset (sep : Char) :
    ∀ (cs p : List Char), p ∈ splitOnChar sep cs → ∀ a ∈ p, a ∈ cs := by
  intro cs
  induction cs with
  | nil =>
    intro p hp a ha
    simp only [splitOnChar, List.mem_singleton] at hp
    subst hp
    simp at ha
  | cons c cs ih =>
    intro p hp a ha
    simp only [splitOnChar] at hp
    by_cases hc : c = sep
    · rw [if_pos hc] at hp
      rcases List.mem_cons.mp hp with h | h
      · subst h; simp at ha
      · exact List.mem_cons_of_mem _ (ih p h a ha)
    · rw [if_neg hc] at hp
      cases hsp : splitOnChar sep cs with
      | nil => exact absurd hsp (splitOnChar_ne_nil sep cs)
      | cons hd tl =>
        rw [hsp] at hp
        rcases List.mem_cons.mp hp with h | h
        · subst h
          rcases List.mem_cons.mp ha with h2 | h2
          · subst h2; exact List.mem_cons_self _ _
          · exact List.mem_cons_of_mem _
              (ih hd (by rw [hsp]; exact List.mem_cons_self _ _) a h2)
        · exact List.mem_cons_of_mem _
            (ih p (by rw [hsp]; exact List.mem_cons_of_mem _ h) a ha)

/-- `parseInt` on input without a dash never yields a negative value. -/
theorem jsParseIntChars_nonneg (cs : List Char) (hnd : '-' ∉ cs) :
    ∀ n, jsParseIntChars cs = some n → 0 ≤ n := by
  intro n hn
  unfold jsParseIntChars at hn
  cases hm : cs.dropWhile Char.isWhitespace with
  | nil => rw [hm] at hn; cases hn
  | cons a rest =>
    rw [hm] at hn
    simp only [jsParseIntAfterWs] at hn
    have ha : a ≠ '-' := by
      intro he
      apply hnd
      have hmem : a ∈ cs.dropWhile Char.isWhitespace := by
        rw [hm]; exact List.mem_cons_self _ _
      rw [← he]
      exact List.Sublist.mem hmem (List.dropWhile_sublist _)
    rw [if_neg ha] at hn
    by_cases hp : a = '+'
    · rw [if_pos hp] at hn
      by_cases hd : (rest.takeWhile Char.isDigit).isEmpty
      · rw [if_pos hd] at hn; cases hn
      · rw [if_neg hd] at hn
        simp only [Option.some.injEq] at hn
        subst hn
        exact Int.natCast_nonneg _
    · rw [if_neg hp] at hn
      by_cases hd : ((a :: rest).takeWhile Char.isDigit).isEmpty
      · rw [if_pos hd] at hn; cases hn
      · rw [if_neg hd] at hn
        simp only [Option.some.injEq] at hn
        subst hn
        exact Int.natCast_nonneg _

/-- Every segment produced by `parseVersion` is non-negative: the dashes are
split away before the dot-separated segments are parsed. -/
theorem parseVersion_segments_nonneg (v : String) :
    ∀ s ∈ (parseVersion v).segments, 0 ≤ s := by
  intro s hs
  unfold parseVersion at hs
  simp only [List.mem_filterMap] at hs
  obtain ⟨part, hpart, hparse⟩ := hs
  set lowered := v.data.map Char.toLower with hlow
  set w := (match lowered with | 'v' :: rest => rest | l => l) with hw
  have hmainmem : (splitOnChar '-' w).headD [] ∈ splitOnChar '-' w := by
    cases hsp : splitOnChar '-' w with
    | nil => exact absurd hsp (splitOnChar_ne_nil '-' w)
    | cons h t => simp
  have hnodash : '-' ∉ (splitOnChar '-' w).headD [] :=
    mem_splitOnChar_not_sep '-' w _ hmainmem
  have hnd : '-' ∉ part := by
    intro hmem
    exact hnodash (mem_splitOnChar_subset '.' _ part hpart '-' hmem)
  exact jsParseIntChars_nonneg part hnd s hparse

/-- Comparing against entries that are all non-negative, the exhausted-side
loop never returns a positive answer. -/
theorem segCmpNil_nonpos (bs : List Int) (hb : ∀ b ∈ bs, 0 ≤ b) :
    segCmpNil bs ≤ 0 := by
  induction bs with
  | nil => simp [segCmpNil]
  | cons b bs ih =>
    have hb0 : 0 ≤ b := hb b (List.mem_cons_self _ _)
    simp only [segCmpNil]
    rw [if_neg (by omega)]
    by_cases hlt : 0 < b
    · rw [if_pos hlt]; omega
    · rw [if_neg hlt]
      exact ih (fun x hx => hb x (List.mem_cons_of_mem _ hx))

/-- An element is in the insertion result iff it is the inserted element or
was already present. -/
theorem mem_insertByCmp (cmp : α → α → Int) (x a : α) :
    ∀ l, a ∈ insertByCmp cmp x l ↔ a = x ∨ a ∈ l := by
  intro l
  induction l with
  | nil => simp [insertByCmp]
  | cons y ys ih =>
    simp only [insertByCmp]
    by_cases hc : cmp y x ≤ 0
    · rw [if_pos hc]
      simp only [List.mem_cons, ih]
      tauto
    · rw [if_neg hc]
      simp only [List.mem_cons]

/-- Membership through the insertion-sort fold. -/
theorem mem_sortByCmp_foldl (cmp : α → α → Int) :
    ∀ (l acc : List α) (a : α),
      a ∈ l.foldl (fun acc x => insertByCmp cmp x acc) acc ↔ a ∈ l ∨ a ∈ acc := by
  intro l
  induction l with
  | nil => intro acc a; simp
  | cons c cs ih =>
    intro acc a
    simp only [List.foldl_cons, ih, mem_insertByCmp, List.mem_cons]
    tauto

/-- The stable comparator sort is a permutation membership-wise. -/
theorem mem_sortByCmp (cmp : α → α → Int) (l : List α) (a : α) :
    a ∈ sortByCmp cmp l ↔ a ∈ l := by
  unfold sortByCmp
  rw [mem_sortByCmp_foldl]
  simp

/-- C9 counterexample: a candidate list whose only tag is the malformed,
non-numeric `"abc"` does not crash resolution, but the malformed tag is NOT
excluded from comparison — it is selected as the latest build, refuting the
claim that malformed tags are never selected. -/
theorem findLatestImage_malformed_selected :
    findLatestImage
      [{ id := "id1", dockerImageId := "sha1", architecture := "amd64",
         repositories := [{ tags := [{ name := "abc" }] }] }] =
    some { imageId := "id1", dockerImageId := "sha1", version := "abc",
           architecture := "amd64" } := by
  decide

/-- C9 (amended): latest-build resolution never crashes — it is total and
returns `none` exactly when no tag survives the flattening filter; a
malformed/non-numeric tag parses to `{segments := [], build := none}` and
compares as version zero, so it never strictly beats any other tag (in
particular it never outranks a tag with a positive numeric segment or a
build number), but it can still be selected when only malformed or
all-zero tags survive; and any returned build carries a tag that is
actually present on one of the candidate images. -/
theorem findLatestImage_malformed_spec :
    (∀ (v u : String), parseVersion v = { segments := [], build := none } →
      compareVersions v u ≤ 0) ∧
    (∀ (images : List CatalogImageEntry) (img : CatalogImage),
      findLatestImage images = some img →
      ∃ ci ∈ images, ∃ repo ∈ ci.repositories, ∃ tg ∈ repo.tags,
        tg.name = img.version ∧ ci.id = img.imageId) ∧
    (∀ images : List CatalogImageEntry,
      findLatestImage images = none ↔ extractImageTags images = []) := by
  refine ⟨?_, ?_, ?_⟩
  · intro v u hv
    simp only [compareVersions, hv]
    have hnn : ∀ s ∈ (parseVersion u).segments, 0 ≤ s :=
      parseVersion_segments_nonneg u
    have hle : segCmpNil (parseVersion u).segments ≤ 0 :=
      segCmpNil_nonpos _ hnn
    simp only [segCmpList]
    by_cases hz : segCmpNil (parseVersion u).segments = 0
    · rw [if_neg (fun hne => hne hz)]
      cases hb : (parseVersion u).build with
      | none => simp
      | some b => simp
    · rw [if_pos hz]
      exact hle
  · intro images img h
    unfold findLatestImage at h
    by_cases h1 : images.isEmpty
    · rw [if_pos h1] at h; cases h
    · rw [if_neg h1] at h
      by_cases h2 : (extractImageTags images).isEmpty
      · rw [if_pos h2] at h; cases h
      · rw [if_neg h2] at h
        cases hs : sortByCmp (fun a b => compareVersions b.2 a.2)
            (extractImageTags images) with
        | nil => rw [hs] at h; cases h
        | cons latest rest =>
          rw [hs] at h
          simp only [Option.some.injEq] at h
          have hmem : latest ∈ extractImageTags images := by
            rw [← mem_sortByCmp (fun a b => compareVersions b.2 a.2)]
            rw [hs]
            exact List.mem_cons_self _ _
          unfold extractImageTags at hmem
          simp only [List.mem_flatMap, List.mem_filterMap] at hmem
          obtain ⟨ci, hci, repo, hrepo, tg, htg, hsome⟩ := hmem
          by_cases hcond : tg.name ≠ "" ∧ tg.name ≠ "latest"
          · rw [if_pos hcond] at hsome
            simp only [Option.some.injEq] at hsome
            subst h
            subst hsome
            exact ⟨ci, hci, repo, hrepo, tg, htg, rfl, rfl⟩
          · rw [if_neg hcond] at hsome; cases hsome
  · intro images
    constructor
    · intro h
      unfold findLatestImage at h
      by_cases h1 : images.isEmpty
      · have : images = [] := List.isEmpty_iff.mp h1
        subst this
        rfl
      · rw [if_neg h1] at h
        by_cases h2 : (extractImageTags images).isEmpty
        · exact List.isEmpty_iff.mp h2
        · rw [if_neg h2] at h
          cases hs : sortByCmp (fun a b => compareVersions b.2 a.2)
              (extractImageTags images) with
          | nil =>
            have hne : extractImageTags images ≠ [] := fun hh =>
              h2 (by rw [hh]; rfl)
            obtain ⟨a, ha⟩ := List.exists_mem_of_ne_nil _ hne
            have hmem : a ∈ sortByCmp (fun a b => compareVersions b.2 a.2)
                (extractImageTags images) := (mem_sortByCmp _ _ _).mpr ha
            rw [hs] at hmem
            simp at hmem
          | cons latest rest => rw [hs] at h; cases h
    · intro h
      unfold findLatestImage
      by_cases h1 : images.isEmpty
      · rw [if_pos h1]
      · rw [if_neg h1, if_pos (show (extractImageTags images).isEmpty = true by rw [h]; rfl)]

/-- Witness for C9's amended theorem at a concrete input: the malformed tag
`"abc"` compares as not newer than `"1.0"`. -/
theorem findLatestImage_malformed_spec_witness :
    compareVersions "abc" "1.0" ≤ 0 :=
  findLatestImage_malformed_spec.1 "abc" "1.0" (by decide)

/-- The exhausted-side loop equals lexicographic comparison against a list of
zeros. -/
theorem segCmpNil_eq_lex (bs : List Int) :
    segCmpNil bs = lexCompareSameLen (List.replicate bs.length 0) bs := by
  induction bs with
  | nil => rfl
  | cons b bs ih =>
    simp only [segCmpNil, List.length_cons, List.replicate_succ, lexCompareSameLen]
    rw [ih]

/-- Padding a list one deeper commutes with `cons`. -/
theorem padWithZeros_cons (a : Int) (l : List Int) (n : Nat) :
    padWithZeros (a :: l) (n + 1) = a :: padWithZeros l n := by
  simp [padWithZeros, Nat.succ_sub_succ]

/-- The segment loop of `compareVersions` equals the claim-side zero-padded
lexicographic comparison. -/
theorem segCmpList_eq_padded :
    ∀ (as bs : List Int),
      segCmpList as bs =
        lexCompareSameLen (padWithZeros as (max as.length bs.length))
          (padWithZeros bs (max as.length bs.length)) := by
  intro as
  induction as with
  | nil =>
    intro bs
    simp only [segCmpList, List.length_nil, Nat.zero_max]
    rw [segCmpNil_eq_lex]
    have h1 : padWithZeros [] bs.length = List.replicate bs.length 0 := by
      simp [padWithZeros]
    have h2 : padWithZeros bs bs.length = bs := by simp [padWithZeros]
    rw [h1, h2]
  | cons a as ih =>
    intro bs
    cases bs with
    | nil =>
      simp only [segCmpList, List.length_cons, List.length_nil, Nat.max_zero]
      have hpadl : padWithZeros (a :: as) (as.length + 1) = a :: as := by
        simp [padWithZeros]
      have hpadr : padWithZeros [] (as.length + 1) =
          0 :: List.replicate as.length 0 := by
        simp [padWithZeros, List.replicate_succ]
      rw [hpadl, hpadr]
      simp only [lexCompareSameLen]
      have htail : segCmpList as [] =
          lexCompareSameLen as (List.replicate as.length 0) := by
        have hih := ih []
        simp only [List.length_nil, Nat.max_zero] at hih
        rw [hih]
        have h1 : padWithZeros as as.length = as := by simp [padWithZeros]
        have h2 : padWithZeros [] as.length = List.replicate as.length 0 := by
          simp [padWithZeros]
        rw [h1, h2]
      rw [htail]
    | cons b bs =>
      simp only [segCmpList, List.length_cons]
      have hmax : max (as.length + 1) (bs.length + 1) = max as.length bs.length + 1 :=
        Nat.succ_max_succ as.length bs.length
      rw [hmax, padWithZeros_cons, padWithZeros_cons]
      simp only [lexCompareSameLen]
      rw [ih bs]

/-- The best-candidate fold picks an element of the candidate list. -/
theorem foldl_best_mem (l : List (CandidateBuild × String))
    (p : CandidateBuild × String) :
    l.foldl (fun best x => if 0 < fullCompare x best then x else best) p ∈
      p :: l := by
  induction l generalizing p with
  | nil => simp
  | cons c cs ih =>
    simp only [List.foldl_cons]
    by_cases hc : 0 < fullCompare c p
    · rw [if_pos hc]
      exact List.mem_cons_of_mem _ (ih c)
    · rw [if_neg hc]
      rcases List.mem_cons.mp (ih p) with h | h
      · rw [h]; exact List.mem_cons_self _ _
      · exact List.mem_cons_of_mem _ (List.mem_cons_of_mem _ h)

/-- Any build returned by `resolveLatest` corresponds to a surviving
`(build, tag)` pair: the pair is among the flattened pairs, and when the
stream is not `"latest"` its tag passed the stream filter. -/
theorem resolveLatest_mem (stream : String) (cands : List CandidateBuild)
    (rb : ResolvedBuild) (h : resolveLatest stream cands = some rb) :
    ∃ p : CandidateBuild × String,
      p ∈ (cands.flatMap fun b => b.tags.filterMap
        (fun t => if t ≠ "latest" then some (b, t) else none)) ∧
      rb = { buildId := p.1.buildId, displayVersion := p.2 } ∧
      (stream = "latest" ∨ streamMatches stream p.2 = true) := by
  simp only [resolveLatest] at h
  by_cases hs : stream = "latest"
  · rw [if_pos hs] at h
    cases hsv : (cands.flatMap fun b => b.tags.filterMap
        (fun t => if t ≠ "latest" then some (b, t) else none)) with
    | nil => rw [hsv] at h; cases h
    | cons p rest =>
      rw [hsv] at h
      simp only [Option.some.injEq] at h
      have hbest := foldl_best_mem rest p
      exact ⟨_, hbest, h.symm, Or.inl hs⟩
  · rw [if_neg hs] at h
    cases hsv : ((cands.flatMap fun b => b.tags.filterMap
        (fun t => if t ≠ "latest" then some (b, t) else none)).filter
          (fun p => streamMatches stream p.2)) with
    | nil => rw [hsv] at h; cases h
    | cons p rest =>
      rw [hsv] at h
      simp only [Option.some.injEq] at h
      have hbest := foldl_best_mem rest p
      rw [← hsv] at hbest
      have hf := List.mem_filter.mp hbest
      exact ⟨_, hf.1, h.symm, Or.inr hf.2⟩

/-- C3 (spec-modelled resolution): the version comparison of latest-build
resolution equals the claim-side description — lexicographic comparison of
zero-padded integer segments, then on a segment tie a non-null build beats
none and the larger build wins — any remaining tie is broken by `createdAt`
descending, and resolving over tags 4.9.0-1 / 4.9.0-2 / 4.9.0 with stream
"4.9" returns the build tagged 4.9.0-2 (even though it is not the
latest-created). -/
theorem resolveLatest_version_ordering_spec :
    (∀ v1 v2 : String,
      compareVersions v1 v2 =
        specCompareVersions (parseVersion v1) (parseVersion v2)) ∧
    (∀ p q : CandidateBuild × String,
      compareVersions p.2 q.2 = 0 →
      (0 < fullCompare p q ↔ q.1.createdAt < p.1.createdAt)) ∧
    (resolveLatest "latest"
        [{ buildId := "b1", tags := ["1.0"], createdAt := 5 },
         { buildId := "b2", tags := ["1.0.0"], createdAt := 9 }] =
      some { buildId := "b2", displayVersion := "1.0.0" } ∧
     resolveLatest "latest"
        [{ buildId := "b1", tags := ["1.0"], createdAt := 9 },
         { buildId := "b2", tags := ["1.0.0"], createdAt := 5 }] =
      some { buildId := "b1", displayVersion := "1.0" }) ∧
    (resolveLatest "4.9"
      [{ buildId := "b1", tags := ["4.9.0-1"], createdAt := 30 },
       { buildId := "b2", tags := ["4.9.0-2"], createdAt := 20 },
       { buildId := "b3", tags := ["4.9.0"], createdAt := 10 }] =
     some { buildId := "b2", displayVersion := "4.9.0-2" }) := by
  refine ⟨?_, ?_, ⟨by decide, by decide⟩, by decide⟩
  · intro v1 v2
    simp only [compareVersions, specCompareVersions]
    rw [segCmpList_eq_padded]
    cases hb1 : (parseVersion v1).build <;> cases hb2 : (parseVersion v2).build <;>
      simp [specBuildCompare]
  · intro p q h
    simp only [fullCompare, h]
    split_ifs with h1 h2 h3 <;> omega

/-- Witness for C3: on the segment-tied pair 1.0.0 / 1.0, the full comparison
is decided by `createdAt` descending. -/
theorem resolveLatest_version_ordering_spec_witness :
    0 < fullCompare
      ({ buildId := "b2", tags := ["1.0.0"], createdAt := 9 }, "1.0.0")
      ({ buildId := "b1", tags := ["1.0"], createdAt := 5 }, "1.0") :=
  (resolveLatest_version_ordering_spec.2.1
    ({ buildId := "b2", tags := ["1.0.0"], createdAt := 9 }, "1.0.0")
    ({ buildId := "b1", tags := ["1.0"], createdAt := 5 }, "1.0")
    (by decide)).mpr (by decide)

/-- C4 (spec-modelled resolution): when the stream is not the literal
"latest", every tag that does not match the stream as a version prefix is
discarded before comparison — any resolved build's tag matches the stream,
and the result always carries a tag of one of the candidate builds; in
particular, tags 4.10.0 / 4.9.5 with stream "4.9" resolve to 4.9.5 (even
though 4.10.0 is numerically larger and later-created), never to 4.10.0. -/
theorem resolveLatest_stream_filter_spec :
    (∀ (stream : String) (cands : List CandidateBuild) (rb : ResolvedBuild),
      stream ≠ "latest" →
      resolveLatest stream cands = some rb →
      streamMatches stream rb.displayVersion = true) ∧
    (∀ (stream : String) (cands : List CandidateBuild) (rb : ResolvedBuild),
      resolveLatest stream cands = some rb →
      ∃ b ∈ cands, rb.buildId = b.buildId ∧ rb.displayVersion ∈ b.tags) ∧
    (resolveLatest "4.9"
      [{ buildId := "bA", tags := ["4.10.0"], createdAt := 99 },
       { buildId := "bB", tags := ["4.9.5"], createdAt := 1 }] =
     some { buildId := "bB", displayVersion := "4.9.5" }) ∧
    (streamMatches "4.9" "4.9.0-1" = true ∧
     streamMatches "4.9" "4.9.2" = true ∧
     streamMatches "4.9" "4.10.0" = false) := by
  refine ⟨?_, ?_, by decide, by decide⟩
  · intro stream cands rb hs h
    obtain ⟨p, hp, hrb, hor⟩ := resolveLatest_mem stream cands rb h
    rcases hor with hlat | hmatch
    · exact absurd hlat hs
    · rw [hrb]
      exact hmatch
  · intro stream cands rb h
    obtain ⟨p, hp, hrb, _⟩ := resolveLatest_mem stream cands rb h
    simp only [List.mem_flatMap, List.mem_filterMap] at hp
    obtain ⟨b, hb, t, ht, hsome⟩ := hp
    by_cases hc : t ≠ "latest"
    · rw [if_pos hc] at hsome
      simp only [Option.some.injEq] at hsome
      subst hsome
      exact ⟨b, hb, by rw [hrb], by rw [hrb]; exact ht⟩
    · rw [if_neg hc] at hsome; cases hsome

/-- Witness for C4 at a concrete input: the resolved tag 4.9.5 of the
concrete example indeed matches stream "4.9". -/
theorem resolveLatest_stream_filter_spec_witness :
    streamMatches "4.9" "4.9.5" = true :=
  resolveLatest_stream_filter_spec.1 "4.9"
    [{ buildId := "bA", tags := ["4.10.0"], createdAt := 99 },
     { buildId := "bB", tags := ["4.9.5"], createdAt := 1 }]
    { buildId := "bB", displayVersion := "4.9.5" }
    (by decide) (by decide)
